import Mathlib

/-!
Shallow embedding of the plant-dynamics/rollout engine of
`src/plants/robots/robots_sys.py` (class `RobotsSystem`), together with
theorems checking the natural-language specification against it.

Modelling conventions:
* torch float tensors are modelled over `ℝ`;
* a batched state tensor of shape `(batch, 1, 4)` is a `Fin n → (Fin 4 → ℝ)`;
* `F.linear(v, W)` is `Matrix.vecMul v Wᵀ`, `torch.bmm` of a row vector with a
  batched matrix is the per-example `Matrix.vecMul`;
* fallible tensor operations (`view`, broadcasting, the `assert`s of
  `__init__`, Python `UnboundLocalError`) are modelled with `Option`.
-/

set_option maxHeartbeats 1000000
set_option linter.unusedVariables false

noncomputable section

/-- The constructor-time data of `RobotsSystem` that the dynamics read:
equilibrium `xbar`, initial state `x_init`, initial input `u_init`
(all already reshaped to single vectors), the `linear_plant` mode flag and
the spring gain `k`.  The remaining attributes (`h`, `mass`, `b`, `b2`,
`B`, `A_lin`, `mask`) are hard-coded constants in `__init__` and are
modelled as the definitions below. -/
structure RobotsSystem where
  xbar : Fin 4 → ℝ
  x_init : Fin 4 → ℝ
  u_init : Fin 2 → ℝ
  linear_plant : Bool
  k : ℝ

namespace RobotsSystem

/-- Constant `self.h = 0.05`. -/
def h : ℝ := 0.05

/-- Constant `self.mass = 1.0`. -/
def mass : ℝ := 1.0

/-- Constant `self.b = 1.0` (linear damping). -/
def b : ℝ := 1.0

/-- Constant `self.b2 = 0.1` (nonlinear friction coefficient; in the source it is
`None` in linear mode and `0.1` otherwise, and it is only ever read in
nonlinear mode). -/
def b2 : ℝ := 0.1

/-- Matrix `self.B = torch.tensor([[0,0],[0,0],[1/m,0],[0,1/m]]) * self.h`. -/
def B : Matrix (Fin 4) (Fin 2) ℝ :=
  h • !![0, 0; 0, 0; 1/mass, 0; 0, 1/mass]

/-- Matrix `_A2`, the block matrix built in `__init__` by concatenating
`[[zeros(2,2), eye(2)], [diag(-k/m,-k/m), diag(-b/m,-b/m)]]`.
The source fixes `self.b = 1.0`; the damping coefficient is kept as the
argument `bc` so that the dependence of the formula on `b` can be stated. -/
def _A2 (kc bc : ℝ) : Matrix (Fin 4) (Fin 4) ℝ :=
  (Matrix.fromBlocks (0 : Matrix (Fin 2) (Fin 2) ℝ) (1 : Matrix (Fin 2) (Fin 2) ℝ)
      (Matrix.diagonal ![-kc/mass, -kc/mass]) (Matrix.diagonal ![-bc/mass, -bc/mass])).submatrix
    (@finSumFinEquiv 2 2).symm (@finSumFinEquiv 2 2).symm

/-- Matrix `self.A_lin = _A1 + self.h * _A2` with `_A1 = torch.eye(4)` and the
hard-coded `self.b`. -/
def A_lin (kc : ℝ) : Matrix (Fin 4) (Fin 4) ℝ :=
  1 + h • _A2 kc b

/-- Constant `self.mask = torch.tensor([[0, 0], [1, 1]])`. -/
def mask : Matrix (Fin 2) (Fin 2) ℝ := !![0, 0; 1, 1]

/-- One batch element of `x.view(-1, 2, 2)`: entry `(i, j)` of the 2×2 view
of a state vector is component `2*i+j` of the state. -/
def xview (x : Fin 4 → ℝ) : Matrix (Fin 2) (Fin 2) ℝ :=
  Matrix.of fun i j => x ⟨2 * i.val + j.val, by have hi := i.isLt; have hj := j.isLt; omega⟩

/-- Row norms `torch.norm(x.view(-1,2,2) * self.mask, dim=-1)` for one batch element:
the Euclidean norm of each masked row of the 2×2 view. -/
def maskedRowNorm (x : Fin 4 → ℝ) : Fin 2 → ℝ := fun i =>
  Real.sqrt ((xview x i 0 * mask i 0) ^ 2 + (xview x i 1 * mask i 1) ^ 2)

/-- Duplication `torch.kron(A3, torch.ones(2,1))` on a `(2,1)` column: each entry is
duplicated, giving the `(4,1)` column `(v 0, v 0, v 1, v 1)`. -/
def kron2 (v : Fin 2 → ℝ) : Fin 4 → ℝ := fun r =>
  v ⟨r.val / 2, by have hr := r.isLt; omega⟩

/-- The state-dependent correction built inside `A_nonlin`:
`-self.b2 / self.mass * torch.diag_embed(...)` applied to the duplicated
masked row norms.  (In the source this is the final value of the local
variable `A3`.) -/
def A3 (x : Fin 4 → ℝ) : Matrix (Fin 4) (Fin 4) ℝ :=
  (-b2 / mass) • Matrix.diagonal (kron2 (maskedRowNorm x))

/-- Method `A_nonlin`: `A = self.A_lin + self.h * A3`, one batch element.
(The `assert not self.linear_plant` guard is a mode check only and does not
affect the computed value.) -/
def A_nonlin (kc : ℝ) (x : Fin 4 → ℝ) : Matrix (Fin 4) (Fin 4) ℝ :=
  A_lin kc + h • A3 x

/-- Method `noiseless_forward(self, t, x, u)`, one batch element.  The linear
branch is `F.linear(x - xbar, A_lin) + F.linear(u, B) + xbar`, i.e.
`(x-xbar)·A_linᵀ + u·Bᵀ + xbar`; the nonlinear branch is
`bmm(x - xbar, A_nonlin(x).transpose(1,2)) + F.linear(u, B) + xbar`. -/
def noiseless_forward (sys : RobotsSystem) (t : ℕ) (x : Fin 4 → ℝ) (u : Fin 2 → ℝ) :
    Fin 4 → ℝ :=
  if sys.linear_plant then
    Matrix.vecMul (x - sys.xbar) (A_lin sys.k).transpose + Matrix.vecMul u B.transpose + sys.xbar
  else
    Matrix.vecMul (x - sys.xbar) (A_nonlin sys.k x).transpose
      + Matrix.vecMul u B.transpose + sys.xbar

/-- Method `forward(self, t, x, u, w) = noiseless_forward(t, x, u) + w`, one batch
element with a well-shaped noise slice. -/
def forward (sys : RobotsSystem) (t : ℕ) (x : Fin 4 → ℝ) (u : Fin 2 → ℝ)
    (w : Fin 4 → ℝ) : Fin 4 → ℝ :=
  sys.noiseless_forward t x u + w

end RobotsSystem

/-- The controller object consumed by `rollout`: it exposes `reset()` and a
call `controller(t, x) -> u`.  Its internal state (type `σ`) is threaded
explicitly: `call` returns the control batch together with the updated
state, and `reset` maps states to states. -/
structure Controller (n : ℕ) where
  σ : Type
  init : σ
  reset : σ → σ
  call : σ → ℕ → (Fin n → (Fin 4 → ℝ)) → ((Fin n → (Fin 2 → ℝ)) × σ)

namespace RobotsSystem

/-- The simulation loop of `rollout` in the `train` branch
(`if train: for t in range(data.shape[1]): ...`): starting from batched
state `x`, input `u`, controller state `s` and time `t`, it consumes the
remaining noise slices and returns `(x_log, u_log, final controller
state)`, where the logs collect, in order, the state after each step and
the controller's response to it. -/
def simTrain (sys : RobotsSystem) {n : ℕ} (C : Controller n) :
    (Fin n → (Fin 4 → ℝ)) → (Fin n → (Fin 2 → ℝ)) → C.σ → ℕ →
    List (Fin n → (Fin 4 → ℝ)) →
    List (Fin n → (Fin 4 → ℝ)) × List (Fin n → (Fin 2 → ℝ)) × C.σ
  | _, _, s, _, [] => ([], [], s)
  | x, u, s, t, w :: ws =>
    let xn : Fin n → (Fin 4 → ℝ) := fun i => sys.forward t (x i) (u i) (w i)
    let us := C.call s t xn
    let rest := simTrain sys C xn us.1 us.2 (t + 1) ws
    (xn :: rest.1, us.1 :: rest.2.1, rest.2.2)

/-- The simulation loop of `rollout` in the `else` branch, which runs the
textually identical loop under `torch.no_grad()`.  Gradient tracking has no
effect on the computed values, so the no-grad scope is modelled as running
the same loop. -/
def simNoGrad (sys : RobotsSystem) {n : ℕ} (C : Controller n) :
    (Fin n → (Fin 4 → ℝ)) → (Fin n → (Fin 2 → ℝ)) → C.σ → ℕ →
    List (Fin n → (Fin 4 → ℝ)) →
    List (Fin n → (Fin 4 → ℝ)) × List (Fin n → (Fin 2 → ℝ)) × C.σ
  | _, _, s, _, [] => ([], [], s)
  | x, u, s, t, w :: ws =>
    let xn : Fin n → (Fin 4 → ℝ) := fun i => sys.forward t (x i) (u i) (w i)
    let us := C.call s t xn
    let rest := simNoGrad sys C xn us.1 us.2 (t + 1) ws
    (xn :: rest.1, us.1 :: rest.2.1, rest.2.2)

/-- Method `rollout(self, controller, data, train=False)` for a well-shaped noise
tensor `data` of shape `(n, horizon, 4)`, given as the list of its
`horizon` time slices.  The result models the Python return value
`x_log, None, u_log`: the first component is `some (x_log, None, u_log)`
when the loop ran at least once, and `none` when `horizon = 0` (in the
source the locals `x_log`, `u_log` are then never bound and the `return`
statement raises `UnboundLocalError`).  The second component is the final
controller state: `controller.reset()` runs once before the loop and once
after it, before the `return` statement. -/
def rollout (sys : RobotsSystem) {n : ℕ} (C : Controller n)
    (data : List (Fin n → (Fin 4 → ℝ))) (train : Bool) :
    Option (List (Fin n → (Fin 4 → ℝ)) × Option Unit × List (Fin n → (Fin 2 → ℝ))) × C.σ :=
  let s0 := C.reset C.init
  let res :=
    if train then
      simTrain sys C (fun _ => sys.x_init) (fun _ => sys.u_init) s0 0 data
    else
      simNoGrad sys C (fun _ => sys.x_init) (fun _ => sys.u_init) s0 0 data
  (if data.isEmpty then none else some (res.1, none, res.2.1), C.reset res.2.2)

end RobotsSystem

/-- A deterministic, batch-pointwise, internal-state-free controller given
by a pure control law `g`: `reset` is the identity and the batched call
applies `g t` to each batch element of the state. -/
def pureController (n : ℕ) (g : ℕ → (Fin 4 → ℝ) → (Fin 2 → ℝ)) : Controller n where
  σ := Unit
  init := ()
  reset := id
  call := fun s t x => (fun i => g t (x i), s)

/-- A Python tensor as it is passed to `__init__`: its shape together with
its (flattened) entries. -/
structure PyTensor where
  shape : List ℕ
  data : List ℝ

namespace PyTensor

/-- Number of elements of a tensor. -/
def numel (tn : PyTensor) : ℕ := tn.shape.prod

/-- Reshape `t.reshape(1, -1)`: the same data with shape `(1, numel)`. -/
def reshapeRow (tn : PyTensor) : PyTensor := ⟨[1, tn.numel], tn.data⟩

end PyTensor

/-- The buffers registered by `RobotsSystem.__init__`. -/
structure InitBuffers where
  xbar : PyTensor
  x_init : PyTensor
  u_init : PyTensor

/-- The buffer registration and dimension checks of `RobotsSystem.__init__`:
`xbar` is reshaped to `(1, -1)`; `x_init` defaults to `xbar` and is
otherwise reshaped to `(1, -1)`; `u_init` defaults to
`torch.zeros(1, xbar.shape[1] // 2)`, but when it is supplied the source
evaluates `u_init.reshape(1, -1)` WITHOUT assigning the result, so the
registered buffer keeps its original shape.  The asserts then require
`xbar.shape[1] == 4`, `x_init.shape[1] == 4` and `u_init.shape[1] == 2`;
a missing `shape[1]` (Python `IndexError`) or a failed `assert` makes
construction fail, modelled as `none`. -/
def initRobots (xbar0 : PyTensor) (linear_plant : Bool) (x_init0 : Option PyTensor)
    (u_init0 : Option PyTensor) (kc : ℝ) : Option InitBuffers :=
  let xbarR := xbar0.reshapeRow
  let xinitR := match x_init0 with
    | none => xbarR
    | some xi => xi.reshapeRow
  let uinitR : PyTensor := match u_init0 with
    | none => ⟨[1, xbarR.numel / 2], List.replicate (xbarR.numel / 2) (0 : ℝ)⟩
    | some ui => ui
  match xbarR.shape[1]?, xinitR.shape[1]?, uinitR.shape[1]? with
  | some a, some c, some d => if a = 4 ∧ c = 4 ∧ d = 2 then some ⟨xbarR, xinitR, uinitR⟩ else none
  | _, _, _ => none

namespace RobotsSystem

/-- The noise slice `data[:, t:t+1, :]` of a noise tensor of shape
`(bsz, T, d)`, as a list of `bsz` rows of length `d`. -/
def sliceRows (bsz d : ℕ) (noise : ℕ → ℕ → ℕ → ℝ) (t : ℕ) : List (List ℝ) :=
  (List.range bsz).map fun i => (List.range d).map fun j => noise i t j

/-- Splits a flat list into consecutive groups of four. -/
def chunks4 : List ℝ → List (Fin 4 → ℝ)
  | a :: bb :: c :: dd :: rest => (fun i => [a, bb, c, dd].getD i.val 0) :: chunks4 rest
  | _ => []

/-- View `w.view(-1, 1, self.state_dim)` applied to the slice
`data[:, t:t+1, :]` of a `(bsz, T, d)` noise tensor.  When `d = 4` the view
is the identity.  Otherwise `view` succeeds without copying only when the
total number of elements is divisible by 4 and the slice's strides allow
the regrouping — which holds exactly when `T = 1` (the slice is the whole
contiguous tensor) or `bsz = 1` (the leading size-1 dimensions make the
slice contiguous); the flat data is then reinterpreted as rows of four.
In every other case `view` raises, modelled as `none`. -/
def viewSlice (bsz T d : ℕ) (rows : List (List ℝ)) : Option (List (Fin 4 → ℝ)) :=
  if d = 4 then some (rows.map fun r i => r.getD i.val 0)
  else if (bsz * d) % 4 = 0 ∧ (T = 1 ∨ bsz = 1) then some (chunks4 rows.flatten)
  else none

/-- Elementwise addition of two batched `(·, 1, 4)` tensors with PyTorch
broadcasting over the batch dimension: the batch sizes must agree, or one
of them must be 1 and is then repeated. -/
def broadcastAdd (xs ws : List (Fin 4 → ℝ)) : Option (List (Fin 4 → ℝ)) :=
  if xs.length = ws.length then some (List.zipWith (fun a bb => a + bb) xs ws)
  else if ws.length = 1 then some (xs.map fun a => a + ws.headI)
  else if xs.length = 1 then some (ws.map fun bb => xs.headI + bb)
  else none

/-- The `rollout` loop with the tensor-shape behaviour of
`forward = noiseless_forward(t, x, u) + w.view(-1, 1, state_dim)` made
explicit, for a noise tensor of shape `(bsz, T, d)` and a deterministic
batch-pointwise controller `g`: each step computes the noiseless forward
per batch element, views the current noise slice as state vectors
(`viewSlice`), and adds it with broadcasting (`broadcastAdd`); a shape
failure aborts the rollout (`none`). -/
def simShaped (sys : RobotsSystem) (g : ℕ → (Fin 4 → ℝ) → (Fin 2 → ℝ)) (bsz T d : ℕ)
    (noise : ℕ → ℕ → ℕ → ℝ) :
    List (Fin 4 → ℝ) → List (Fin 2 → ℝ) → List ℕ →
    Option (List (List (Fin 4 → ℝ)) × List (List (Fin 2 → ℝ)))
  | _, _, [] => some ([], [])
  | x, u, t :: ts =>
    let nf := List.zipWith (fun xi ui => sys.noiseless_forward t xi ui) x u
    match viewSlice bsz T d (sliceRows bsz d noise t) with
    | none => none
    | some ws =>
      match broadcastAdd nf ws with
      | none => none
      | some xn =>
        let un := xn.map (g t)
        match simShaped sys g bsz T d noise xn un ts with
        | none => none
        | some (xl, ul) => some (xn :: xl, un :: ul)

/-- Method `rollout` on a raw noise tensor of shape `(bsz, T, d)`: the initial
state and input are repeated `bsz` times, the shaped loop runs over
`t = 0, …, T-1`, and as in `rollout` a horizon of 0 leaves the logs
unbound (`none`). -/
def rolloutShaped (sys : RobotsSystem) (g : ℕ → (Fin 4 → ℝ) → (Fin 2 → ℝ)) (bsz T d : ℕ)
    (noise : ℕ → ℕ → ℕ → ℝ) :
    Option (List (List (Fin 4 → ℝ)) × Option Unit × List (List (Fin 2 → ℝ))) :=
  match simShaped sys g bsz T d noise (List.replicate bsz sys.x_init)
      (List.replicate bsz sys.u_init) (List.range T) with
  | none => none
  | some (xl, ul) => if T = 0 then none else some (xl, none, ul)

end RobotsSystem

/-- Following the words of claim C3: the ordered per-timestep sequence of
pairs whose `t`-th entry is the state produced by applying the dynamics
with the `t`-th noise slice, together with the controller's response to
that newly advanced state. -/
def specTraj (sys : RobotsSystem) {n : ℕ} (C : Controller n) :
    (Fin n → (Fin 4 → ℝ)) → (Fin n → (Fin 2 → ℝ)) → C.σ → ℕ →
    List (Fin n → (Fin 4 → ℝ)) →
    List ((Fin n → (Fin 4 → ℝ)) × (Fin n → (Fin 2 → ℝ)))
  | _, _, _, _, [] => []
  | x, u, s, t, w :: ws =>
    let xn : Fin n → (Fin 4 → ℝ) := fun i => sys.forward t (x i) (u i) (w i)
    let us := C.call s t xn
    (xn, us.1) :: specTraj sys C xn us.1 us.2 (t + 1) ws

section Helpers

/-- The two textually identical loop bodies of `rollout` compute the same
logs and final controller state. -/
theorem simTrain_eq_simNoGrad (sys : RobotsSystem) {n : ℕ} (C : Controller n)
    (x : Fin n → (Fin 4 → ℝ)) (u : Fin n → (Fin 2 → ℝ)) (s : C.σ) (t : ℕ)
    (data : List (Fin n → (Fin 4 → ℝ))) :
    sys.simTrain C x u s t data = sys.simNoGrad C x u s t data := by
  induction data generalizing x u s t with
  | nil => rfl
  | cons w ws ih =>
      simp only [RobotsSystem.simTrain, RobotsSystem.simNoGrad]
      rw [ih]

/-- The state log of the loop is the first projection of `specTraj`, and
the control log its second projection. -/
theorem simTrain_eq_specTraj (sys : RobotsSystem) {n : ℕ} (C : Controller n)
    (x : Fin n → (Fin 4 → ℝ)) (u : Fin n → (Fin 2 → ℝ)) (s : C.σ) (t : ℕ)
    (data : List (Fin n → (Fin 4 → ℝ))) :
    (sys.simTrain C x u s t data).1 = (specTraj sys C x u s t data).map Prod.fst ∧
    (sys.simTrain C x u s t data).2.1 = (specTraj sys C x u s t data).map Prod.snd := by
  induction data generalizing x u s t with
  | nil => exact ⟨rfl, rfl⟩
  | cons w ws ih =>
      simp only [RobotsSystem.simTrain, specTraj, List.map]
      exact ⟨by rw [(ih ..).1], by rw [(ih ..).2]⟩

/-- Function `specTraj` produces one entry per timestep. -/
theorem specTraj_length (sys : RobotsSystem) {n : ℕ} (C : Controller n)
    (x : Fin n → (Fin 4 → ℝ)) (u : Fin n → (Fin 2 → ℝ)) (s : C.σ) (t : ℕ)
    (data : List (Fin n → (Fin 4 → ℝ))) :
    (specTraj sys C x u s t data).length = data.length := by
  induction data generalizing x u s t with
  | nil => rfl
  | cons w ws ih => simp only [specTraj, List.length_cons, ih]

end Helpers

/-- Claim C1: for every batched state `x` and input `u`,
`noiseless_forward` returns the affine map
`f(x,u) = A(x)·(x − xbar) + B·u + xbar`, where `A(x) = A_lin` when
`linear_plant` is true and `A(x) = A_lin + h·(A_nonlin correction)(x)`
when it is false. -/
theorem noiseless_forward_affine (sys : RobotsSystem) (t : ℕ) (x : Fin 4 → ℝ)
    (u : Fin 2 → ℝ) :
    sys.noiseless_forward t x u =
      Matrix.mulVec
        (if sys.linear_plant then RobotsSystem.A_lin sys.k
         else RobotsSystem.A_lin sys.k + RobotsSystem.h • RobotsSystem.A3 x)
        (x - sys.xbar)
      + Matrix.mulVec RobotsSystem.B u + sys.xbar := by
  unfold RobotsSystem.noiseless_forward RobotsSystem.A_nonlin
  cases hb : sys.linear_plant <;>
    simp [Matrix.vecMul_transpose, -Matrix.transpose_add, -Matrix.transpose_smul]

/-- Claim C6: the `train` flag never changes the computed state and
control trajectories. -/
theorem rollout_train_flag (sys : RobotsSystem) {n : ℕ} (C : Controller n)
    (data : List (Fin n → (Fin 4 → ℝ))) :
    sys.rollout C data true = sys.rollout C data false := by
  simp only [RobotsSystem.rollout, if_true, if_false, Bool.false_eq_true]
  rw [simTrain_eq_simNoGrad]

/-- Claim C10: with a horizon of 0 the trajectory logs are never
initialized and `rollout` fails (first component `none`) instead of
returning empty logs; the controller has nevertheless been reset twice
when the failure surfaces. -/
theorem rollout_empty_horizon (sys : RobotsSystem) {n : ℕ} (C : Controller n)
    (train : Bool) :
    sys.rollout C [] train = (none, C.reset (C.reset C.init)) := by
  cases train <;> rfl

/-- Claim C4: the code evaluated at the inputs on which it diverges from
the claim.  Because line 27 discards the result of `u_init.reshape(1, -1)`,
a `u_init` of shape `(2,)` (IndexError on `shape[1]`) and of shape `(2, 1)`
(`shape[1] = 1 ≠ 2`) both make construction fail even though they reshape
to exactly 2 components; an `xbar` of length 3 fails and the default
(omitted) `u_init` succeeds, as the claim states. -/
theorem init_u_init_dimension_bug :
    initRobots ⟨[4], [0, 0, 0, 0]⟩ true none (some ⟨[2], [0, 0]⟩) 1 = none ∧
    initRobots ⟨[4], [0, 0, 0, 0]⟩ true none (some ⟨[2, 1], [0, 0]⟩) 1 = none ∧
    initRobots ⟨[3], [0, 0, 0]⟩ true none none 1 = none ∧
    initRobots ⟨[4], [0, 0, 0, 0]⟩ true none none 1 =
      some ⟨⟨[1, 4], [0, 0, 0, 0]⟩, ⟨[1, 4], [0, 0, 0, 0]⟩, ⟨[1, 2], [0, 0]⟩⟩ :=
  ⟨rfl, rfl, rfl, rfl⟩

/-- Claim C2 (amended): `A_nonlin(x) = A_lin + h·C(x)` with
`C(x) = −(b2/m)·diag(s)`, where `s` is obtained from the per-ROW norms of
the masked 2×2 view of the state — the position row is masked away
(norm 0) and the velocity row gives the total speed `‖(v₁, v₂)‖` — each
row scalar being duplicated to the two adjacent state rows, so that
`s = (0, 0, ‖v‖, ‖v‖)`. -/
theorem A_nonlin_masked_speed (kc : ℝ) (x : Fin 4 → ℝ) :
    RobotsSystem.A_nonlin kc x =
      RobotsSystem.A_lin kc + RobotsSystem.h •
        ((-RobotsSystem.b2 / RobotsSystem.mass) • Matrix.diagonal
          ![0, 0, Real.sqrt (x 2 ^ 2 + x 3 ^ 2), Real.sqrt (x 2 ^ 2 + x 3 ^ 2)]) := by
  have hk : RobotsSystem.kron2 (RobotsSystem.maskedRowNorm x) =
      ![0, 0, Real.sqrt (x 2 ^ 2 + x 3 ^ 2), Real.sqrt (x 2 ^ 2 + x 3 ^ 2)] := by
    funext r
    fin_cases r <;>
      simp [RobotsSystem.kron2, RobotsSystem.maskedRowNorm, RobotsSystem.xview,
        RobotsSystem.mask, Fin.isValue]
  rw [RobotsSystem.A_nonlin, RobotsSystem.A3, hk]

/-- Modelled from the words of claim C2: per spatial axis, the Euclidean
norm of the velocity-only masked (position, velocity) 2-vector of that
axis, each axis's scalar duplicated to that axis's position and velocity
rows, then the diagonal correction `−(b2/m)·diag(s)` added as `A_lin +
h·correction`. -/
def A_nonlin_claim (kc : ℝ) (x : Fin 4 → ℝ) : Matrix (Fin 4) (Fin 4) ℝ :=
  RobotsSystem.A_lin kc + RobotsSystem.h •
    ((-RobotsSystem.b2 / RobotsSystem.mass) • Matrix.diagonal fun r : Fin 4 =>
      Real.sqrt ((0 : ℝ) ^ 2 + x ⟨2 + r.val % 2, by omega⟩ ^ 2))

/-- Counterexample to claim C2 as stated: at the state `(0, 0, 3, 4)`
(positions 0, velocities `(3, 4)`), the matrix computed by the code is not
the per-axis-speed matrix the claim describes — the code leaves the two
position rows of the correction at 0 and puts the total speed 5 on both
velocity rows, whereas the claim's construction puts the per-axis speeds
3 and 4 on the corresponding rows. -/
theorem A_nonlin_claim_cex :
    RobotsSystem.A_nonlin 1 ![0, 0, 3, 4] ≠ A_nonlin_claim 1 ![0, 0, 3, 4] := by
  intro hcontra
  have h00 := congrFun (congrFun hcontra 0) 0
  have hs : Real.sqrt ((0 : ℝ) ^ 2 + (3 : ℝ) ^ 2) = 3 := by
    rw [show (0 : ℝ) ^ 2 + (3 : ℝ) ^ 2 = 3 ^ 2 by norm_num]
    exact Real.sqrt_sq (by norm_num)
  simp [RobotsSystem.A_nonlin, A_nonlin_claim, RobotsSystem.A3, RobotsSystem.kron2,
    RobotsSystem.maskedRowNorm, RobotsSystem.xview, RobotsSystem.mask,
    Matrix.add_apply, Matrix.smul_apply, Matrix.diagonal_apply_eq, smul_eq_mul,
    RobotsSystem.h, RobotsSystem.b2, RobotsSystem.mass, hs] at h00
  norm_num at h00

/-- Claim C8: `A_lin = I + h·A2` with `A2` the block matrix with zero
top-left block, identity top-right block, `−k/m·I` bottom-left block and
`−b/m·I` bottom-right block (written out entrywise); changing `k` affects
only the bottom-left 2×2 block of `A_lin`, and changing the damping
coefficient `b` in the formula affects only the bottom-right 2×2 block. -/
theorem A_lin_block_structure :
    (∀ kc : ℝ, RobotsSystem.A_lin kc =
        1 + RobotsSystem.h •
          !![0, 0, 1, 0;
             0, 0, 0, 1;
             -(kc / RobotsSystem.mass), 0, -(RobotsSystem.b / RobotsSystem.mass), 0;
             0, -(kc / RobotsSystem.mass), 0, -(RobotsSystem.b / RobotsSystem.mass)]) ∧
    (∀ k1 k2 : ℝ, ∀ i j : Fin 4, ¬(2 ≤ i.val ∧ j.val < 2) →
        RobotsSystem.A_lin k1 i j = RobotsSystem.A_lin k2 i j) ∧
    (∀ kc b1 b2c : ℝ, ∀ i j : Fin 4, ¬(2 ≤ i.val ∧ 2 ≤ j.val) →
        ((1 : Matrix (Fin 4) (Fin 4) ℝ) + RobotsSystem.h • RobotsSystem._A2 kc b1) i j =
          ((1 : Matrix (Fin 4) (Fin 4) ℝ) + RobotsSystem.h • RobotsSystem._A2 kc b2c) i j) := by
  have hA2 : ∀ kc bc : ℝ, ∀ i j : Fin 4,
      RobotsSystem._A2 kc bc i j =
        !![0, 0, 1, 0;
           0, 0, 0, 1;
           -(kc / RobotsSystem.mass), 0, -(bc / RobotsSystem.mass), 0;
           0, -(kc / RobotsSystem.mass), 0, -(bc / RobotsSystem.mass)] i j := by
    intro kc bc i j
    have e0 : (@finSumFinEquiv 2 2).symm 0 = Sum.inl 0 := by decide
    have e1 : (@finSumFinEquiv 2 2).symm 1 = Sum.inl 1 := by decide
    have e2 : (@finSumFinEquiv 2 2).symm 2 = Sum.inr 0 := by decide
    have e3 : (@finSumFinEquiv 2 2).symm 3 = Sum.inr 1 := by decide
    fin_cases i <;> fin_cases j <;>
      simp [RobotsSystem._A2, Matrix.submatrix_apply, Matrix.fromBlocks,
        Matrix.diagonal, Matrix.one_apply, neg_div, e0, e1, e2, e3]
  refine ⟨?_, ?_, ?_⟩
  · intro kc
    ext i j
    rw [RobotsSystem.A_lin, Matrix.add_apply, Matrix.add_apply, Matrix.smul_apply,
      Matrix.smul_apply, hA2]
  · intro k1 k2 i j hij
    rw [RobotsSystem.A_lin, RobotsSystem.A_lin, Matrix.add_apply, Matrix.add_apply,
      Matrix.smul_apply, Matrix.smul_apply, hA2, hA2]
    fin_cases i <;> fin_cases j <;> simp_all
  · intro kc b1 b2c i j hij
    rw [Matrix.add_apply, Matrix.add_apply, Matrix.smul_apply, Matrix.smul_apply,
      hA2, hA2]
    fin_cases i <;> fin_cases j <;> simp_all

/-- Witness for C8: the top-right entry `(0, 2)` of `A_lin` does not move
when `k` changes from 1 to 5, nor when the damping coefficient changes
from 1 to 7. -/
theorem A_lin_block_structure_witness :
    (¬(2 ≤ (0 : Fin 4).val ∧ (2 : Fin 4).val < 2)) ∧
    RobotsSystem.A_lin 1 0 2 = RobotsSystem.A_lin 5 0 2 ∧
    (¬(2 ≤ (0 : Fin 4).val ∧ 2 ≤ (2 : Fin 4).val)) ∧
    ((1 : Matrix (Fin 4) (Fin 4) ℝ) + RobotsSystem.h • RobotsSystem._A2 1 1) 0 2 =
      ((1 : Matrix (Fin 4) (Fin 4) ℝ) + RobotsSystem.h • RobotsSystem._A2 1 7) 0 2 :=
  ⟨by decide, A_lin_block_structure.2.1 1 5 0 2 (by decide),
   by decide, A_lin_block_structure.2.2 1 1 7 0 2 (by decide)⟩

/-- A concrete linear-mode plant at the origin with zero initial input,
used to instantiate theorems with hypotheses. -/
def sysW : RobotsSystem := ⟨0, 0, 0, true, 1⟩

/-- A concrete always-zero controller on a batch of 1. -/
def ctrlW : Controller 1 := pureController 1 fun _ _ => 0

/-- A concrete all-zero noise tensor with batch 1 and horizon 1. -/
def dataW : List (Fin 1 → (Fin 4 → ℝ)) := [0]

/-- Claim C3 (amended): for a nonempty noise tensor, `rollout` returns the
two ordered logs — states and controls, one entry per timestep, the `t`-th
entries being the state produced by applying the dynamics with the `t`-th
noise slice and the controller's response to that newly advanced state —
but as the first and third components of a TRIPLE whose middle component
is the constant `None`. -/
theorem rollout_logs (sys : RobotsSystem) {n : ℕ} (C : Controller n)
    (data : List (Fin n → (Fin 4 → ℝ))) (train : Bool) (hd : data ≠ []) :
    (sys.rollout C data train).1 =
      some ((specTraj sys C (fun _ => sys.x_init) (fun _ => sys.u_init)
              (C.reset C.init) 0 data).map Prod.fst,
            none,
            (specTraj sys C (fun _ => sys.x_init) (fun _ => sys.u_init)
              (C.reset C.init) 0 data).map Prod.snd) ∧
    (specTraj sys C (fun _ => sys.x_init) (fun _ => sys.u_init)
        (C.reset C.init) 0 data).length = data.length := by
  have hne : data.isEmpty = false := by
    cases data with
    | nil => exact absurd rfl hd
    | cons a l => rfl
  have hlog := simTrain_eq_specTraj sys C (fun _ => sys.x_init) (fun _ => sys.u_init)
    (C.reset C.init) 0 data
  refine ⟨?_, specTraj_length ..⟩
  cases train <;>
    simp [RobotsSystem.rollout, hne, ← simTrain_eq_simNoGrad, hlog.1, hlog.2]

/-- Witness for C3 on the concrete plant `sysW`, zero controller and
one-step zero noise. -/
theorem rollout_logs_witness :
    dataW ≠ [] ∧
    ((sysW.rollout ctrlW dataW false).1 =
      some ((specTraj sysW ctrlW (fun _ => sysW.x_init) (fun _ => sysW.u_init)
              (ctrlW.reset ctrlW.init) 0 dataW).map Prod.fst,
            none,
            (specTraj sysW ctrlW (fun _ => sysW.x_init) (fun _ => sysW.u_init)
              (ctrlW.reset ctrlW.init) 0 dataW).map Prod.snd) ∧
     (specTraj sysW ctrlW (fun _ => sysW.x_init) (fun _ => sysW.u_init)
        (ctrlW.reset ctrlW.init) 0 dataW).length = dataW.length) :=
  ⟨by simp [dataW], rollout_logs sysW ctrlW dataW false (by simp [dataW])⟩

/-- Counterexample to claim C3 as stated: `rollout` does not return
exactly two sequences — the source's `return x_log, None, u_log` makes the
result a triple whose middle component is the constant `None`, exhibited
here on a concrete rollout. -/
theorem rollout_middle_none_cex :
    Option.map (fun r => r.2.1) (sysW.rollout ctrlW dataW false).1 = some none := by
  rfl

/-- At the equilibrium with zero input and zero noise, one plant step
returns the equilibrium, in both linear and nonlinear mode. -/
theorem forward_equilibrium (sys : RobotsSystem) (t : ℕ) :
    sys.forward t sys.xbar 0 0 = sys.xbar := by
  unfold RobotsSystem.forward RobotsSystem.noiseless_forward
  cases hb : sys.linear_plant <;> simp [Matrix.zero_vecMul]

/-- The loop started at the equilibrium with zero input, an always-zero
controller and all-zero noise logs only the equilibrium state and zero
controls. -/
theorem simTrain_at_equilibrium (sys : RobotsSystem) {n : ℕ} (C : Controller n)
    (hc : ∀ s t xb, (C.call s t xb).1 = 0) :
    ∀ (data : List (Fin n → (Fin 4 → ℝ))), (∀ w ∈ data, w = 0) →
    ∀ (s : C.σ) (t : ℕ),
    (sys.simTrain C (fun _ => sys.xbar) 0 s t data).1 =
        List.replicate data.length (fun _ => sys.xbar) ∧
    (sys.simTrain C (fun _ => sys.xbar) 0 s t data).2.1 =
        List.replicate data.length 0 := by
  intro data
  induction data with
  | nil => intro _ s t; exact ⟨rfl, rfl⟩
  | cons w ws ih =>
    intro hw s t
    have hw0 : w = 0 := hw w (List.mem_cons_self ..)
    have hxn : (fun i : Fin n => sys.forward t sys.xbar 0 (w i)) = fun _ : Fin n => sys.xbar := by
      funext i
      rw [hw0]
      exact forward_equilibrium sys t
    have hih := ih (fun wmem hmem => hw wmem (List.mem_cons_of_mem _ hmem))
      (C.call s t fun _ => sys.xbar).2 (t + 1)
    simp only [RobotsSystem.simTrain, List.length_cons, List.replicate_succ]
    rw [show (fun i : Fin n => sys.forward t ((fun _ : Fin n => sys.xbar) i)
          ((0 : Fin n → Fin 2 → ℝ) i) (w i)) = fun i : Fin n => sys.forward t sys.xbar 0 (w i)
        from rfl, hxn, hc s t]
    exact ⟨by rw [hih.1], by rw [hih.2]⟩

/-- Claim C7 (amended): if `x_init = xbar`, `u_init = 0`, the controller
returns zero at every step and the noise tensor is all-zero, then every
state in the returned trajectory equals `xbar` (and every control is 0),
for every horizon, batch size, mode and train flag.  The extra hypothesis
`u_init = 0` is required: the first step applies `u_init`, not a
controller output. -/
theorem rollout_equilibrium (sys : RobotsSystem) {n : ℕ} (C : Controller n)
    (data : List (Fin n → (Fin 4 → ℝ))) (train : Bool)
    (hx : sys.x_init = sys.xbar) (hu : sys.u_init = 0)
    (hc : ∀ s t xb, (C.call s t xb).1 = 0)
    (hw : ∀ w ∈ data, w = 0) :
    (sys.rollout C data train).1 =
      if data.isEmpty then none
      else some (List.replicate data.length (fun _ => sys.xbar), none,
                 List.replicate data.length 0) := by
  have hsim := simTrain_at_equilibrium sys C hc data hw (C.reset C.init) 0
  have h0 : (fun _ : Fin n => (0 : Fin 2 → ℝ)) = 0 := rfl
  cases train <;>
    simp [RobotsSystem.rollout, hx, hu, h0, ← simTrain_eq_simNoGrad, hsim.1, hsim.2]

/-- Witness for C7 on the concrete plant `sysW`, zero controller and
one-step zero noise. -/
theorem rollout_equilibrium_witness :
    sysW.x_init = sysW.xbar ∧ sysW.u_init = 0 ∧
    (∀ s t xb, (ctrlW.call s t xb).1 = 0) ∧ (∀ w ∈ dataW, w = 0) ∧
    (sysW.rollout ctrlW dataW false).1 =
      (if dataW.isEmpty then none
       else some (List.replicate dataW.length (fun _ => sysW.xbar), none,
                  List.replicate dataW.length 0)) :=
  ⟨rfl, rfl, fun s t xb => rfl, by simp [dataW],
   rollout_equilibrium sysW ctrlW dataW false rfl rfl (fun s t xb => rfl) (by simp [dataW])⟩

/-- A linear-mode plant at the origin whose initial input is `(1, 0)`
rather than zero. -/
def sysC7 : RobotsSystem := ⟨0, 0, ![1, 0], true, 1⟩

/-- Counterexample to claim C7 as stated: with `x_init = xbar`, an
always-zero controller and all-zero noise but nonzero initial input
`u_init = (1, 0)`, the first logged state is `xbar + B·u_init`, whose
third component is `h = 0.05` while `xbar`'s is 0 — so not every state of
the trajectory equals `xbar`; the claim needs the hypothesis `u_init = 0`. -/
theorem rollout_equilibrium_cex :
    sysC7.x_init = sysC7.xbar ∧
    Option.map (fun r => r.1.map fun xb => xb 0 2)
        (sysC7.rollout (pureController 1 fun _ _ => 0) [0] false).1 =
      some [RobotsSystem.h] ∧
    RobotsSystem.h ≠ sysC7.xbar 2 := by
  refine ⟨rfl, ?_, ?_⟩
  · have hval : sysC7.forward 0 sysC7.x_init sysC7.u_init 0 2 = RobotsSystem.h := by
      simp [RobotsSystem.forward, RobotsSystem.noiseless_forward, sysC7,
        Matrix.vecMul_transpose, -Matrix.transpose_add, -Matrix.transpose_smul,
        Matrix.mulVec, Matrix.dotProduct, Fin.sum_univ_two, RobotsSystem.B,
        RobotsSystem.mass, Matrix.smul_apply, Matrix.zero_vecMul, smul_eq_mul]
      norm_num
      simp [Matrix.vecHead, Matrix.vecTail, Function.comp, Matrix.transpose_apply,
        Matrix.cons_val_zero, Matrix.cons_val_one, Matrix.head_cons, Matrix.cons_val',
        Matrix.empty_val']
    show some [sysC7.forward 0 sysC7.x_init sysC7.u_init 0 2] = some [RobotsSystem.h]
    rw [hval]
  · simp only [sysC7, RobotsSystem.h]
    norm_num

/-- The loop of `rollout` run with a deterministic batch-pointwise
controller treats batch elements independently: projecting the batch-`m`
logs to element `i` gives the batch-1 logs run on element `i`'s noise. -/
theorem simTrain_pointwise (sys : RobotsSystem) (g : ℕ → (Fin 4 → ℝ) → (Fin 2 → ℝ))
    {m : ℕ} (i : Fin m) :
    ∀ (data : List (Fin m → (Fin 4 → ℝ))) (x : Fin m → (Fin 4 → ℝ))
      (u : Fin m → (Fin 2 → ℝ)) (t : ℕ),
    ((sys.simTrain (pureController m g) x u () t data).1.map fun xb => xb i) =
      ((sys.simTrain (pureController 1 g) (fun _ => x i) (fun _ => u i) () t
          (data.map fun w => fun _ => w i)).1.map fun xb => xb 0) ∧
    ((sys.simTrain (pureController m g) x u () t data).2.1.map fun ub => ub i) =
      ((sys.simTrain (pureController 1 g) (fun _ => x i) (fun _ => u i) () t
          (data.map fun w => fun _ => w i)).2.1.map fun ub => ub 0) := by
  intro data
  induction data with
  | nil => intro x u t; exact ⟨rfl, rfl⟩
  | cons w ws ih =>
    intro x u t
    have hih := ih (fun e => sys.forward t (x e) (u e) (w e))
      (fun e => g t (sys.forward t (x e) (u e) (w e))) (t + 1)
    constructor
    · simp only [RobotsSystem.simTrain, List.map_cons]
      exact congrArg₂ List.cons rfl hih.1
    · simp only [RobotsSystem.simTrain, List.map_cons]
      exact congrArg₂ List.cons rfl hih.2

/-- Claim C9: for a deterministic batch-pointwise controller, each element
of the batch-2 rollout equals the batch-1 rollout on that element's noise
sequence — no cross-batch leakage. -/
theorem rollout_batch_pointwise (sys : RobotsSystem) (g : ℕ → (Fin 4 → ℝ) → (Fin 2 → ℝ))
    (data : List (Fin 2 → (Fin 4 → ℝ))) (train : Bool) (i : Fin 2) :
    Option.map (fun r => (r.1.map fun xb => xb i, r.2.2.map fun ub => ub i))
        (sys.rollout (pureController 2 g) data train).1 =
      Option.map (fun r => (r.1.map fun xb => xb 0, r.2.2.map fun ub => ub 0))
        (sys.rollout (pureController 1 g) (data.map fun w => fun _ => w i) train).1 := by
  cases data with
  | nil => cases train <;> rfl
  | cons w ws =>
    have hpt := simTrain_pointwise sys g i (w :: ws)
      (fun _ => sys.x_init) (fun _ => sys.u_init) 0
    cases train
    all_goals
      simp only [RobotsSystem.rollout, List.map_cons, List.isEmpty_cons,
        Bool.false_eq_true, if_false, if_true, ite_true, ite_false,
        ← simTrain_eq_simNoGrad, Option.map_some]
    all_goals
      exact congrArg some (Prod.ext hpt.1 hpt.2)

/-- Claim C5 (amended): a noise tensor whose trailing dimension `d` is not
`state_dim = 4` makes `rollout` fail at the first batched operation
whenever the first slice cannot be viewed as whole state vectors — in
particular whenever `4 ∤ bsz·d`, or both `bsz ≥ 2` and `T ≥ 2`; but when
the slice can be reinterpreted (see the counterexample) no error is
raised. -/
theorem rollout_shape_mismatch (sys : RobotsSystem)
    (g : ℕ → (Fin 4 → ℝ) → (Fin 2 → ℝ)) (bsz T d : ℕ) (noise : ℕ → ℕ → ℕ → ℝ)
    (hd : d ≠ 4) (hT : 1 ≤ T)
    (hview : ¬((bsz * d) % 4 = 0 ∧ (T = 1 ∨ bsz = 1))) :
    sys.rolloutShaped g bsz T d noise = none := by
  obtain ⟨T', rfl⟩ : ∃ T', T = T' + 1 := ⟨T - 1, by omega⟩
  have hcond : ¬(bsz * d % 4 = 0 ∧ (T' = 0 ∨ bsz = 1)) := by
    intro hcontra
    refine hview ⟨hcontra.1, ?_⟩
    rcases hcontra.2 with h1 | h1
    · exact Or.inl (by omega)
    · exact Or.inr h1
  unfold RobotsSystem.rolloutShaped
  rw [List.range_succ_eq_map]
  simp [RobotsSystem.simShaped, RobotsSystem.viewSlice, hd, hcond]

/-- Witness for C5: batch 1, horizon 2, trailing dimension 3 fails. -/
theorem rollout_shape_mismatch_witness :
    (3 ≠ 4) ∧ (1 ≤ 2) ∧ ¬((1 * 3) % 4 = 0 ∧ (2 = 1 ∨ 1 = 1)) ∧
    sysW.rolloutShaped (fun _ _ => 0) 1 2 3 (fun _ _ _ => 0) = none :=
  ⟨by decide, by decide, by decide,
   rollout_shape_mismatch sysW (fun _ _ => 0) 1 2 3 (fun _ _ _ => 0)
     (by decide) (by decide) (by decide)⟩

/-- Counterexample to claim C5 as stated: a zero noise tensor of shape
`(4, 1, 1)` — trailing dimension 1, not 4 — does NOT make `rollout` fail:
`w.view(-1, 1, 4)` silently reinterprets the four per-example noise
scalars as a single state vector, broadcasting resumes, and a trajectory
is returned. -/
theorem rollout_reinterpret_cex :
    (sysW.rolloutShaped (fun _ _ => 0) 4 1 1 (fun _ _ _ => 0)).isSome = true := by
  rfl

